import Mathlib

/-!
Verification of the filter-AST library (tree store, evaluation engine,
execution pipeline) against its specification.

The TypeScript sources are shallowly embedded:
* JavaScript values that can flow through rules and data records are the
  inductive `JsVal` (`undefined` and `null` are distinct constructors, as in
  JS; objects are association lists of fields).
* The node union `Rule | Group` from `types.ts` is `FilterNode`; the
  combinator is carried as a plain `String` because the evaluation engine
  explicitly handles unrecognized combinators at runtime.
* `crypto.randomUUID()` is modelled by passing freshly generated ids (or an
  id oracle `Nat → String`) as explicit arguments.
* The promise-based middleware pipeline of `execution.ts` is embedded in a
  state-and-exception monad `PipeM`: the state carries the per-invocation
  dispatch index (the mutable `index` captured by `dispatch`), a counter of
  terminal-executor invocations and the list of `setTimeout` delays that
  were requested, so that invocation counts and backoff pacing become
  observable values.
-/

namespace FilterLib

/-- A JavaScript runtime value as far as the library manipulates them.
`null` and `undefined` are separate, as in JS.  Objects and arrays are
modelled structurally; JS compares them by reference (`===` on two
structurally equal but distinct literals is `false`), which the strict
equality below reflects. -/
inductive JsVal where
  | null
  | undefined
  | bool (b : Bool)
  | num (n : Int)
  | str (s : String)
  | arr (elems : List JsVal)
  | obj (fields : List (String × JsVal))
deriving Repr

/-- `Rule` from `types.ts`: `{ id, field, op, value, component, meta? }`.
The optional `meta` record is an opaque passenger no operation inspects and
is not modelled. -/
structure Rule where
  id : String
  field : String
  op : String
  value : JsVal
  component : String
deriving Repr

/-- The node union from `types.ts`, discriminated in the source by the
presence of `children`.  `Group` is the second constructor with its fields
inlined; the combinator is a `String` so that the source's handling of
unrecognized combinators is representable. -/
inductive FilterNode where
  | rule (r : Rule)
  | group (id : String) (combinator : String) (children : List FilterNode)
deriving Repr

/-- `node.id` of either variant. -/
def nodeId : FilterNode → String
  | .rule r => r.id
  | .group gid _ _ => gid

mutual
/-- Preorder list of the ids in one node's subtree. -/
def subtreeIds : FilterNode → List String
  | .rule r => [r.id]
  | .group gid _ children => gid :: subtreeIdsList children
/-- Preorder ids of a whole node list. -/
def subtreeIdsList : List FilterNode → List String
  | [] => []
  | n :: rest => subtreeIds n ++ subtreeIdsList rest
end

/-- `findNodeById` as written identically in all three store
implementations: scan the node list left to right, return the first node
whose id matches, recursing depth-first into group children before moving
to later siblings. -/
def findNodeById (tid : String) : List FilterNode → Option FilterNode
  | [] => none
  | node :: rest =>
    if nodeId node = tid then some node
    else
      match node with
      | .group _ _ children =>
        match findNodeById tid children with
        | some found => some found
        | none => findNodeById tid rest
      | .rule _ => findNodeById tid rest

/-- `findGroupById`, identical in all three stores: like `findNodeById`
but a match requires the node to be a Group (`node.id === groupId &&
"children" in node`); rules with the id are skipped. -/
def findGroupById (gid : String) : List FilterNode → Option FilterNode
  | [] => none
  | node :: rest =>
    match node with
    | .group gid2 comb children =>
      if gid2 = gid then some (.group gid2 comb children)
      else
        match findGroupById gid children with
        | some found => some found
        | none => findGroupById gid rest
    | .rule _ => findGroupById gid rest

/-- `hasNode`, identical in all three stores:
`findNodeById(nodeId) !== null` over the root's children. -/
def hasNode (nodes : List FilterNode) (nid : String) : Bool :=
  (findNodeById nid nodes).isSome

/-- `updateTree`, identical in all three stores: map over the node list;
on the node whose id matches, apply `updateFn` (returning `null` deletes
the node with its whole subtree); other groups are rebuilt with their
children recursively processed; finally `null` results are filtered out. -/
def updateTree : List FilterNode → String → (FilterNode → Option FilterNode) → List FilterNode
  | [], _, _ => []
  | node :: rest, tid, f =>
    let mapped : Option FilterNode :=
      if nodeId node = tid then f node
      else
        match node with
        | .group gid comb children => some (.group gid comb (updateTree children tid f))
        | .rule r => some (.rule r)
    match mapped with
    | some n => n :: updateTree rest tid f
    | none => updateTree rest tid f

/-- `Omit<Rule, "id">`: the caller-supplied rule before an id is
generated. -/
structure RuleInput where
  field : String
  op : String
  value : JsVal
  component : String
deriving Repr

/-- `Omit<Group, "id">`. -/
structure GroupInput where
  combinator : String
  children : List FilterNode
deriving Repr

/-- `Partial<Rule>` as accepted by `updateRule`: every field of `Rule`,
including `id`, may be present.  A `none` field is absent from the JS
object and leaves the target's field untouched under spread merge. -/
structure RulePatch where
  id : Option String
  field : Option String
  op : Option String
  value : Option JsVal
  component : Option String

/-- `Partial<Omit<Group, "id" | "children">>` as accepted by
`updateGroup`: only `combinator` can be present. -/
structure GroupPatch where
  combinator : Option String

/-- JS object spread `{ ...node, ...rule }` for a rule and a
`Partial<Rule>` patch. -/
def applyRulePatch (r : Rule) (p : RulePatch) : Rule :=
  ⟨p.id.getD r.id, p.field.getD r.field, p.op.getD r.op,
    p.value.getD r.value, p.component.getD r.component⟩

namespace Store

/-- `updateRule`, identical logic in all three stores (`filter-store.ts`
class, the observable function store and the zustand store): apply the
patch via spread to the node at `ruleId` when it is a rule; groups at that
id are returned unchanged. -/
def updateRule (nodes : List FilterNode) (ruleId : String) (p : RulePatch) : List FilterNode :=
  updateTree nodes ruleId (fun node =>
    match node with
    | .group gid comb children => some (.group gid comb children) -- don't update groups
    | .rule r => some (.rule (applyRulePatch r p)))

/-- `updateGroup`, identical logic in all three stores: merge the patch
(which by its type can only contain `combinator`) into the group at
`groupId`; rules at that id are returned unchanged. -/
def updateGroup (nodes : List FilterNode) (groupId : String) (p : GroupPatch) : List FilterNode :=
  updateTree nodes groupId (fun node =>
    match node with
    | .group gid comb children => some (.group gid (p.combinator.getD comb) children)
    | .rule r => some (.rule r)) -- don't update rules

end Store

/- The observable function store of the repository (`createFilterStore`
with `@legendapp/state`).  Its `addRule`/`addGroup` throw
`Parent group with id ... not found` when the parent id does not resolve
to a group, modelled by `Except.error`; the store state is otherwise the
new children list of the root. -/
namespace FunStore

/-- `addRule(rule, parentId?)` of the function store: generate an id
(passed here as `newId`), and either append to the found parent group via
`updateTree`, throw when no group has `parentId`, or append to the root's
children when no `parentId` is given. -/
def addRule (children : List FilterNode) (r : RuleInput) (parentId : Option String)
    (newId : String) : Except String (List FilterNode) :=
  let newRule : FilterNode := .rule ⟨newId, r.field, r.op, r.value, r.component⟩
  match parentId with
  | some pid =>
    match findGroupById pid children with
    | some _ =>
      .ok (updateTree children pid (fun node =>
        match node with
        | .group gid comb cs => some (.group gid comb (cs ++ [newRule]))
        | .rule r0 => some (.rule r0)))
    | none => .error ("Parent group with id " ++ pid ++ " not found")
  | none => .ok (children ++ [newRule])

/-- `addGroup(group, parentId?)` of the function store, symmetric to
`addRule`. -/
def addGroup (children : List FilterNode) (g : GroupInput) (parentId : Option String)
    (newId : String) : Except String (List FilterNode) :=
  let newGroup : FilterNode := .group newId g.combinator g.children
  match parentId with
  | some pid =>
    match findGroupById pid children with
    | some _ =>
      .ok (updateTree children pid (fun node =>
        match node with
        | .group gid comb cs => some (.group gid comb (cs ++ [newGroup]))
        | .rule r0 => some (.rule r0)))
    | none => .error ("Parent group with id " ++ pid ++ " not found")
  | none => .ok (children ++ [newGroup])

/-- `removeRule` of the function store: delete the node at `ruleId` only
when it is a rule. -/
def removeRule (nodes : List FilterNode) (ruleId : String) : List FilterNode :=
  updateTree nodes ruleId (fun node =>
    match node with
    | .rule _ => none
    | .group gid comb children => some (.group gid comb children))

/-- `removeGroup` of the function store: delete the node at `groupId`
only when it is a group. -/
def removeGroup (nodes : List FilterNode) (groupId : String) : List FilterNode :=
  updateTree nodes groupId (fun node =>
    match node with
    | .group _ _ _ => none
    | .rule r => some (.rule r))

/-- `removeNode` of the function store: delete whichever node carries the
id. -/
def removeNode (nodes : List FilterNode) (nodeId : String) : List FilterNode :=
  updateTree nodes nodeId (fun _ => none)

end FunStore

/- The `FilterStore` class (`filter-store.ts`).  Its `addRule`/`addGroup`
perform no `set` at all when the parent id does not resolve to a group:
the method returns normally and the tree is left as it was (there is no
`throw` in the source), so the embedding is total. -/
namespace FilterStore

/-- `FilterStore.addRule`: append under the found parent, silently do
nothing when `parentId` resolves to no group, or push onto the root's
children when no `parentId` is given. -/
def addRule (children : List FilterNode) (r : RuleInput) (parentId : Option String)
    (newId : String) : List FilterNode :=
  let newRule : FilterNode := .rule ⟨newId, r.field, r.op, r.value, r.component⟩
  match parentId with
  | some pid =>
    match findGroupById pid children with
    | some _ =>
      updateTree children pid (fun node =>
        match node with
        | .group gid comb cs => some (.group gid comb (cs ++ [newRule]))
        | .rule r0 => some (.rule r0))
    | none => children -- no `set` happens in the source: silent no-op
  | none => children ++ [newRule]

/-- `FilterStore.addGroup`, symmetric to `addRule` (same silent no-op on a
missing parent). -/
def addGroup (children : List FilterNode) (g : GroupInput) (parentId : Option String)
    (newId : String) : List FilterNode :=
  let newGroup : FilterNode := .group newId g.combinator g.children
  match parentId with
  | some pid =>
    match findGroupById pid children with
    | some _ =>
      updateTree children pid (fun node =>
        match node with
        | .group gid comb cs => some (.group gid comb (cs ++ [newGroup]))
        | .rule r0 => some (.rule r0))
    | none => children
  | none => children ++ [newGroup]

/-- `FilterStore.removeRule`: the class passes `() => null` to
`updateTree`, so any node carrying the id is deleted (no rule check, in
contrast to the function store). -/
def removeRule (nodes : List FilterNode) (ruleId : String) : List FilterNode :=
  updateTree nodes ruleId (fun _ => none)

/-- `FilterStore.removeGroup`, also `() => null` in the class. -/
def removeGroup (nodes : List FilterNode) (groupId : String) : List FilterNode :=
  updateTree nodes groupId (fun _ => none)

/-- `FilterStore.removeNode`: `() => null`. -/
def removeNode (nodes : List FilterNode) (nodeId : String) : List FilterNode :=
  updateTree nodes nodeId (fun _ => none)

/-- `FilterStore.getNode`: lookup starting from the root group's
`children` (the default argument of `findNodeById`); the root itself is
never examined. -/
def getNode (root : FilterNode) (nid : String) : Option FilterNode :=
  match root with
  | .group _ _ children => findNodeById nid children
  | .rule _ => findNodeById nid [] -- a FilterAST root is always a group

/-- `FilterStore.getGroup`, likewise starting from the root's children. -/
def getGroup (root : FilterNode) (gid : String) : Option FilterNode :=
  match root with
  | .group _ _ children => findGroupById gid children
  | .rule _ => findGroupById gid []

end FilterStore

/- ===== Evaluation engine (`client-executor.ts`) ===== -/

/-- Loose nullish test `x == null` / the guard
`value === null || value === undefined`. -/
def isNullish : JsVal → Bool
  | .null => true
  | .undefined => true
  | _ => false

/-- JS strict equality `===` restricted to the values of the data model.
Arrays and objects compare by reference in JS, so two structurally equal
literals are not `===`; aliasing is not representable here, hence these
cases are `false`. -/
def jsStrictEq : JsVal → JsVal → Bool
  | .null, .null => true
  | .undefined, .undefined => true
  | .bool a, .bool b => a = b
  | .num a, .num b => a = b
  | .str a, .str b => a = b
  | _, _ => false

/-- `String.prototype.includes` on the underlying character lists: is
`sub` a contiguous substring of `s`? -/
def strIncludes (s sub : String) : Bool :=
  go sub.data s.data
where
  go (needle : List Char) : List Char → Bool
    | [] => needle.isEmpty
    | hay@(_ :: rest) => needle.isPrefixOf hay || go needle rest

/-- `String.prototype.toLowerCase`, character by character (the library's
data is ASCII; locale-specific multi-character lowerings do not
occur). -/
def jsToLower (s : String) : String :=
  ⟨s.data.map Char.toLower⟩

/-- The `contains` handler of `defaultOperations`: case-insensitive
substring test, `false` unless both operands are strings. -/
def containsOp (fieldValue ruleValue : JsVal) : Bool :=
  match fieldValue, ruleValue with
  | .str a, .str b => strIncludes (jsToLower a) (jsToLower b)
  | _, _ => false

/-- JS `<` on the operand shapes admitted by the data model's comparison
table: numbers and strings of the same kind.  Mixed-type coercing
comparisons are outside the spec's operator table and are modelled as
`false`. -/
def jsLt : JsVal → JsVal → Bool
  | .num a, .num b => a < b
  | .str a, .str b => a < b
  | _, _ => false

/-- JS `<=` under the same restriction as `jsLt`. -/
def jsLe : JsVal → JsVal → Bool
  | .num a, .num b => a ≤ b
  | .str a, .str b => a ≤ b
  | _, _ => false

/-- The `in` handler: membership of the field value in the rule value
when the latter is an array (via `indexOf`, i.e. strict equality),
otherwise `false`. -/
def inOp (fieldValue ruleValue : JsVal) : Bool :=
  match ruleValue with
  | .arr xs => xs.any (fun x => jsStrictEq x fieldValue)
  | _ => false

/-- The `nin` handler: non-membership when the rule value is an array,
and `true` by default otherwise. -/
def ninOp (fieldValue ruleValue : JsVal) : Bool :=
  match ruleValue with
  | .arr xs => !xs.any (fun x => jsStrictEq x fieldValue)
  | _ => true

/-- The built-in operation handlers of `client-executor.ts`
(`defaultOperations : Record<Op, OperationHandler>`), as an association
list keyed by operator name.  `lt`..`gte` first require the rule value to
be non-nullish (`ruleValue != null`). -/
def defaultOperationHandlers : List (String × (JsVal → JsVal → Bool)) :=
  [("eq", fun f v => jsStrictEq f v),
   ("ne", fun f v => !jsStrictEq f v),
   ("contains", containsOp),
   ("lt", fun f v => !isNullish v && jsLt f v),
   ("lte", fun f v => !isNullish v && jsLe f v),
   ("gt", fun f v => !isNullish v && jsLt v f),
   ("gte", fun f v => !isNullish v && jsLe v f),
   ("in", inOp),
   ("nin", ninOp)]

/-- One step of `current?.[key]`: property access behind optional
chaining.  `null`/`undefined` short-circuit to `undefined`; an object
yields the field's value or `undefined` when absent; primitives and
arrays own no properties of the data model (built-in properties such as
`length` and array indices are outside it), so access yields
`undefined`. -/
def getProp : JsVal → String → JsVal
  | .obj fields, key =>
    match fields.lookup key with
    | some v => v
    | none => .undefined
  | _, _ => .undefined

/-- `fieldPath.split('.')` for the one-character separator `.`:
accumulate characters, cutting a segment at each dot (so consecutive or
trailing dots yield empty segments, as in JS). -/
def splitOnDot (s : String) : List String :=
  go s.data []
where
  go : List Char → List Char → List String
    | [], acc => [⟨acc.reverse⟩]
    | c :: cs, acc =>
      if c = '.' then ⟨acc.reverse⟩ :: go cs [] else go cs (c :: acc)

/-- `getFieldValue(obj, fieldPath)`: when the path contains a dot, split
on `.` and reduce with `current?.[key]`; otherwise a single optional
access. -/
def getFieldValue (obj : JsVal) (fieldPath : String) : JsVal :=
  if fieldPath.data.contains '.' then
    (splitOnDot fieldPath).foldl getProp obj
  else
    getProp obj fieldPath

/-- `ClientExecutorConfig`: custom operation handlers and custom field
extractors, both JS records modelled as association lists. -/
structure ClientExecutorConfig where
  customOperations : List (String × (JsVal → JsVal → Bool))
  fieldExtractors : List (String × (JsVal → JsVal))

/-- Lines 73–75 of `client-executor.ts`: the field value comes from the
custom extractor registered for `rule.field` when there is one, else from
`getFieldValue`. -/
def extractFieldValue (item : JsVal) (r : Rule) (cfg : ClientExecutorConfig) : JsVal :=
  match cfg.fieldExtractors.lookup r.field with
  | some ex => ex item
  | none => getFieldValue item r.field

/-- `evaluateRule(item, rule, config)`.  A nullish rule value is handled
before any handler lookup: `eq` means the field value is nullish, any
other operator means it is present.  Otherwise the handler is
`customOperations[rule.op] || defaultOperations[rule.op]`; an unknown
operator warns and yields `false`.  The source's `try/catch` around the
handler cannot fire here because embedded handlers are total. -/
def evaluateRule (item : JsVal) (r : Rule) (cfg : ClientExecutorConfig) : Bool :=
  let fieldValue := extractFieldValue item r cfg
  if isNullish r.value then
    if r.op = "eq" then isNullish fieldValue else !isNullish fieldValue
  else
    match cfg.customOperations.lookup r.op with
    | some h => h fieldValue r.value
    | none =>
      match defaultOperationHandlers.lookup r.op with
      | some h => h fieldValue r.value
      | none => false -- console.warn(`Unknown operation`), then false

mutual
/-- `evaluateNode(item, node, config)`: dispatch on the presence of
`children`; the group body is inlined from `evaluateGroup` (see the
wrapper below). -/
def evaluateNode (item : JsVal) (cfg : ClientExecutorConfig) : FilterNode → Bool
  | .rule r => evaluateRule item r cfg
  | .group _ comb children =>
    if children.length = 0 then true
    else if comb = "and" then allEval item cfg children
    else if comb = "or" then anyEval item cfg children
    else false -- console.warn(`Unknown combinator`), then false
/-- `children.every(child => evaluateNode(item, child, config))`. -/
def allEval (item : JsVal) (cfg : ClientExecutorConfig) : List FilterNode → Bool
  | [] => true
  | c :: cs => evaluateNode item cfg c && allEval item cfg cs
/-- `children.some(child => evaluateNode(item, child, config))`. -/
def anyEval (item : JsVal) (cfg : ClientExecutorConfig) : List FilterNode → Bool
  | [] => false
  | c :: cs => evaluateNode item cfg c || anyEval item cfg cs
end

/-- `evaluateGroup(item, group, config)` on a group's combinator and
children: empty children are vacuously `true`; `and` requires every
child, `or` at least one child; any other combinator warns and yields
`false`. -/
def evaluateGroup (item : JsVal) (cfg : ClientExecutorConfig)
    (comb : String) (children : List FilterNode) : Bool :=
  if children.length = 0 then true
  else if comb = "and" then allEval item cfg children
  else if comb = "or" then anyEval item cfg children
  else false

/- ===== Configuration / initial-state synthesis (`types.ts`, `helpers.ts`) ===== -/

/-- `defaultOperations` from `types.ts`: the fixed table of operator
lists per component kind. -/
def defaultOperationsTable : List (String × List String) :=
  [("text", ["eq", "contains", "ne"]),
   ("number", ["eq", "ne", "lt", "gt", "lte", "gte"]),
   ("date", ["eq", "ne", "lt", "gt", "lte", "gte"]),
   ("datetime", ["eq", "ne", "lt", "gt", "lte", "gte"]),
   ("select", ["eq", "ne"]),
   ("boolean", ["eq", "ne"]),
   ("multiselect", ["in", "nin"])]

/-- `FilterFieldConfig`: one configured field (rendering-only members are
omitted; `operations` and `options` play no part in initial-state
synthesis but are kept for shape). -/
structure FilterFieldConfig where
  field : String
  label : String
  component : String
  operations : Option (List String)
  defaultOp : Option String

/-- `FilterConfig`: the fields plus the optional per-component override
table `defaultOperations`. -/
structure FilterConfig where
  fields : List FilterFieldConfig
  defaultOperations : Option (List (String × List String))

/-- The `defaultOp` computation in `createInitialFilterState`'s loop
body: `field.defaultOp ?? config.defaultOperations?.[component]?.[0] ??
defaultOperations[component]?.[0] ?? "eq"` (nullish coalescing over
optional chains; an empty operator list has no `[0]` and falls
through). -/
def initialRuleOp (config : FilterConfig) (field : FilterFieldConfig) : String :=
  (((field.defaultOp).orElse (fun _ =>
      (config.defaultOperations.bind (fun table => table.lookup field.component)).bind
        List.head?)).orElse (fun _ =>
      (defaultOperationsTable.lookup field.component).bind List.head?)).getD "eq"

/-- The `initialValue` of the same loop body:
`field.component === "multiselect" ? [] : null`. -/
def initialRuleValue (field : FilterFieldConfig) : JsVal :=
  if field.component = "multiselect" then .arr [] else .null

/-- `createInitialFilterState(config)` from `helpers.ts`: a fresh root
group (combinator `and`) whose children are one rule per configured
field, in configuration order.  `gen` is the id oracle standing in for
`crypto.randomUUID()`: the root takes `gen 0` and the rule for the i-th
field takes `gen (i+1)`. -/
def createInitialFilterState (gen : Nat → String) (config : FilterConfig) : FilterNode :=
  .group (gen 0) "and" (config.fields.enum.map (fun p =>
    .rule ⟨gen (p.1 + 1), p.2.field, initialRuleOp config p.2,
      initialRuleValue p.2, p.2.component⟩))

/-- The spec's wording of the default-operator precedence, used to state
the refinement theorem for `createInitialFilterState`: the field's
`defaultOp`; else the first entry of the config-level `defaultOperations`
list for the field's component; else the first entry of the built-in
default operations for that component; else `"eq"`. -/
def specInitialRuleOp (config : FilterConfig) (field : FilterFieldConfig) : String :=
  match field.defaultOp with
  | some op => op
  | none =>
    match (config.defaultOperations.getD []).lookup field.component with
    | some (op :: _) => op
    | _ =>
      match defaultOperationsTable.lookup field.component with
      | some (op :: _) => op
      | _ => "eq"

/-- The spec's wording of the initial rule value: the empty list for
`multiselect`, else `null`. -/
def specInitialValue (field : FilterFieldConfig) : JsVal :=
  if field.component = "multiselect" then .arr [] else .null

/- ===== Execution pipeline (`execution.ts`) ===== -/

/-- `FilterExecutionContext`: an opaque bag of caller data threaded
through the chain unchanged. -/
structure FilterExecutionContext where
  entries : List (String × JsVal)

/-- The observable effects of one pipeline invocation: `index` is the
mutable dispatch guard captured by the composed closure (`let index =
0`), `termCalls` counts invocations of the terminal executor under test,
and `delays` records the milliseconds of every `setTimeout` pause
requested (in order). -/
structure PipeState where
  index : Nat
  termCalls : Nat
  delays : List Nat
deriving Repr, DecidableEq

/-- Async computations of the pipeline: state passing plus rejection
(`Except.error` is a rejected promise carrying the thrown message). -/
def PipeM (α : Type) : Type := PipeState → Except String α × PipeState

/-- `FilterExecutor<T>`: `(ast, context?) => Promise<T[]>`. -/
def FilterExecutor (T : Type) : Type :=
  FilterNode → Option FilterExecutionContext → PipeM (List T)

/-- `FilterMiddleware<T>`: `(ast, next, context?) => Promise<T[]>`. -/
def FilterMiddleware (T : Type) : Type :=
  FilterNode → FilterExecutor T → Option FilterExecutionContext → PipeM (List T)

/-- The `dispatch` closure of `createFilterExecutor`, for the stage array
`mws ++ [final]`.  In source order: (1) `if (i <= index) throw
"next() called multiple times"`; (2) `index = i`; (3) missing stages
throw `"No middleware found at index i"`; (4) the last stage is invoked
as the executor; (5) any other stage is a middleware receiving
`(ast, ctx) => dispatch(i + 1)` as `next` — note the source's `next`
ignores the ast and context its caller passes and closes over the
originals. -/
def dispatch (T : Type) (mws : List (FilterMiddleware T)) (final : FilterExecutor T)
    (ast : FilterNode) (context : Option FilterExecutionContext) (i : Nat) :
    PipeM (List T) := fun s =>
  if i ≤ s.index then
    (.error "next() called multiple times", s)
  else
    let s1 : PipeState := { s with index := i }
    if h : i < mws.length then
      (mws.get ⟨i, h⟩) ast (fun _ _ => dispatch T mws final ast context (i + 1)) context s1
    else if i = mws.length then
      final ast context s1
    else
      (.error ("No middleware found at index " ++ toString i), s1)
termination_by mws.length + 1 - i
decreasing_by omega

/-- `createFilterExecutor(...middlewares, executor)`: the variadic stage
array is `mws ++ [final]`, which is never empty, so only the source's
length-0 guard is unreachable; a single-element array (no middleware) is
returned as-is; otherwise the composed closure resets its dispatch guard
(`let index = 0`) and starts `dispatch(0)`. -/
def createFilterExecutor (T : Type) (mws : List (FilterMiddleware T))
    (final : FilterExecutor T) : FilterExecutor T :=
  if mws.isEmpty then final
  else fun ast context s => dispatch T mws final ast context 0 { s with index := 0 }

/-- `identityExecutor`: `async (ast) => [ast]`. -/
def identityExecutor : FilterExecutor FilterNode :=
  fun ast _ s => (.ok [ast], s)

/-- The retry loop of `retryMiddleware` with the loop counter split as
`attempt` (the current attempt number) and `remaining` (how many more
attempts the `attempt <= maxRetries` bound still allows; initially
`maxRetries`).  A success returns immediately; on failure with attempts
remaining (`attempt < maxRetries`), the delay `baseDelay * 2 ^ attempt`
is recorded and the loop continues; once attempts are exhausted the last
observed error is rethrown. -/
def retryGo (T : Type) (next : FilterExecutor T) (ast : FilterNode)
    (context : Option FilterExecutionContext) (baseDelay : Nat) :
    Nat → Nat → PipeM (List T)
  | attempt, remaining => fun s =>
    match next ast context s with
    | (.ok v, s2) => (.ok v, s2)
    | (.error e, s2) =>
      match remaining with
      | 0 => (.error e, s2)
      | r + 1 =>
        let s3 : PipeState := { s2 with delays := s2.delays ++ [baseDelay * 2 ^ attempt] }
        retryGo T next ast context baseDelay (attempt + 1) r s3

/-- `retryMiddleware(maxRetries, baseDelay)`: run `next` up to
`maxRetries + 1` times with exponential backoff between attempts. -/
def retryMiddleware (T : Type) (maxRetries baseDelay : Nat) : FilterMiddleware T :=
  fun ast next context => retryGo T next ast context baseDelay 0 maxRetries

/-- Harness executor standing for a terminal executor that fails on every
invocation: it bumps the invocation counter and rejects with the error
the `msgs` oracle assigns to that invocation (so successive failures are
distinguishable). -/
def failingExecutor (T : Type) (msgs : Nat → String) : FilterExecutor T :=
  fun _ _ s => (.error (msgs s.termCalls), { s with termCalls := s.termCalls + 1 })

/-- Harness executor standing for a succeeding terminal executor: it
bumps the invocation counter and resolves with `vals`. -/
def succeedingExecutor (T : Type) (vals : List T) : FilterExecutor T :=
  fun _ _ s => (.ok vals, { s with termCalls := s.termCalls + 1 })

/-- Harness middleware that calls its `next` exactly once and returns its
result unchanged — the minimal well-behaved middleware. -/
def passMiddleware (T : Type) : FilterMiddleware T :=
  fun ast next context => next ast context

/- ===== Supporting lemmas ===== -/

/-- When no node of the forest carries the target id, `updateTree` never
invokes its update function and rebuilds the forest unchanged. -/
theorem updateTree_eq_of_findNodeById_none :
    ∀ (nodes : List FilterNode) (tid : String) (f : FilterNode → Option FilterNode),
      findNodeById tid nodes = none → updateTree nodes tid f = nodes
  | [], _, _, _ => by simp [updateTree]
  | node :: rest, tid, f, h => by
    rw [findNodeById.eq_def] at h
    rw [updateTree.eq_def]
    dsimp only at h ⊢
    by_cases hid : nodeId node = tid
    · simp [hid] at h
    · simp only [hid, if_false, if_neg hid] at h ⊢
      cases node with
      | rule r =>
        dsimp only at h ⊢
        simpa using updateTree_eq_of_findNodeById_none rest tid f h
      | group gid comb children =>
        dsimp only at h ⊢
        rcases hc : findNodeById tid children with _ | found
        · rw [hc] at h
          simp only at h
          have ih1 := updateTree_eq_of_findNodeById_none children tid f hc
          have ih2 := updateTree_eq_of_findNodeById_none rest tid f h
          simp [ih1, ih2]
        · rw [hc] at h
          simp at h

/-- An id that occurs nowhere in the preorder id list of a forest is not
found by `findNodeById`. -/
theorem findNodeById_eq_none_of_not_mem :
    ∀ (nodes : List FilterNode) (tid : String),
      tid ∉ subtreeIdsList nodes → findNodeById tid nodes = none
  | [], _, _ => by simp [findNodeById]
  | node :: rest, tid, h => by
    rw [subtreeIdsList.eq_def] at h
    simp only [List.mem_append, not_or] at h
    obtain ⟨hn, hrest⟩ := h
    rw [findNodeById.eq_def]
    dsimp only
    have hid : ¬ nodeId node = tid := by
      cases node with
      | rule r => simpa [subtreeIds, nodeId, eq_comm] using hn
      | group gid comb children =>
        rw [subtreeIds.eq_def] at hn
        simp only [List.mem_cons, not_or] at hn
        simpa [nodeId, eq_comm] using hn.1
    simp only [hid, if_false, if_neg hid]
    cases node with
    | rule r =>
      dsimp only
      exact findNodeById_eq_none_of_not_mem rest tid hrest
    | group gid comb children =>
      dsimp only
      rw [subtreeIds.eq_def] at hn
      simp only [List.mem_cons, not_or] at hn
      rw [findNodeById_eq_none_of_not_mem children tid hn.2]
      exact findNodeById_eq_none_of_not_mem rest tid hrest

/-- An id that occurs nowhere in the preorder id list of a forest is not
found by `findGroupById` either. -/
theorem findGroupById_eq_none_of_not_mem :
    ∀ (nodes : List FilterNode) (tid : String),
      tid ∉ subtreeIdsList nodes → findGroupById tid nodes = none
  | [], _, _ => by simp [findGroupById]
  | node :: rest, tid, h => by
    rw [subtreeIdsList.eq_def] at h
    simp only [List.mem_append, not_or] at h
    obtain ⟨hn, hrest⟩ := h
    rw [findGroupById.eq_def]
    dsimp only
    cases node with
    | rule r =>
      dsimp only
      exact findGroupById_eq_none_of_not_mem rest tid hrest
    | group gid comb children =>
      dsimp only
      rw [subtreeIds.eq_def] at hn
      simp only [List.mem_cons, not_or] at hn
      have hid : ¬ gid = tid := by simpa [eq_comm] using hn.1
      simp only [hid, if_false, if_neg hid]
      rw [findGroupById_eq_none_of_not_mem children tid hn.2]
      exact findGroupById_eq_none_of_not_mem rest tid hrest

/-- `updateTree` preserves the preorder id list whenever the update
function rewrites the targeted node to one with the same subtree ids. -/
theorem updateTree_preserve_ids :
    ∀ (nodes : List FilterNode) (tid : String) (f : FilterNode → Option FilterNode),
      (∀ n, nodeId n = tid → ∃ n', f n = some n' ∧ subtreeIds n' = subtreeIds n) →
      subtreeIdsList (updateTree nodes tid f) = subtreeIdsList nodes
  | [], _, _, _ => by simp [updateTree]
  | node :: rest, tid, f, hf => by
    rw [updateTree.eq_def]
    dsimp only
    by_cases hid : nodeId node = tid
    · obtain ⟨n', hfn, hids⟩ := hf node hid
      simp only [hid, if_true, hfn]
      rw [subtreeIdsList.eq_def]
      conv_rhs => rw [subtreeIdsList.eq_def]
      dsimp only
      rw [hids, updateTree_preserve_ids rest tid f hf]
    · simp only [hid, if_false, if_neg hid]
      cases node with
      | rule r =>
        dsimp only
        rw [subtreeIdsList.eq_def]
        conv_rhs => rw [subtreeIdsList.eq_def]
        dsimp only
        rw [updateTree_preserve_ids rest tid f hf]
      | group gid comb children =>
        dsimp only
        rw [subtreeIdsList.eq_def]
        conv_rhs => rw [subtreeIdsList.eq_def]
        dsimp only
        rw [subtreeIds.eq_def]
        conv_rhs => rw [subtreeIds.eq_def]
        dsimp only
        rw [updateTree_preserve_ids children tid f hf,
          updateTree_preserve_ids rest tid f hf]

/-- `every` over children agrees with universal quantification over the
list. -/
theorem allEval_eq_true_iff (item : JsVal) (cfg : ClientExecutorConfig)
    (l : List FilterNode) :
    allEval item cfg l = true ↔ ∀ c ∈ l, evaluateNode item cfg c = true := by
  induction l with
  | nil => simp [allEval]
  | cons c cs ih => simp [allEval, ih]

/-- `some` over children agrees with existential quantification over the
list. -/
theorem anyEval_eq_true_iff (item : JsVal) (cfg : ClientExecutorConfig)
    (l : List FilterNode) :
    anyEval item cfg l = true ↔ ∃ c ∈ l, evaluateNode item cfg c = true := by
  induction l with
  | nil => simp [anyEval]
  | cons c cs ih => simp [anyEval, ih]

/- ===== Claim C2 ===== -/

/-- A one-rule tree used to exhibit the missing-parent behavior. -/
def c2tree : List FilterNode := [.rule ⟨"r1", "name", "eq", .str "Alice", "text"⟩]

/-- The rule input handed to `addRule` with a nonexistent parent id. -/
def c2rule : RuleInput := ⟨"age", "eq", .num 30, "number"⟩

/-- The group input handed to `addGroup` with a nonexistent parent id. -/
def c2group : GroupInput := ⟨"or", []⟩

/-- Claim C2 (code bug): `addRule`/`addGroup` with a parent id that
resolves to no group is supposed to fail with `ParentNotFound` surfaced
to the caller, never a silent no-op.  The function store does exactly
that; but the `FilterStore` class (and likewise the zustand store)
returns normally with the tree unchanged — its `else` branch performs no
`set` and throws nothing — so on `FilterStore` the claim fails.  Both
behaviors are evaluated here at the same concrete input. -/
theorem addRule_missing_parent_divergence :
    FunStore.addRule c2tree c2rule (some "p1") "n1"
      = .error ("Parent group with id " ++ "p1" ++ " not found")
    ∧ FunStore.addGroup c2tree c2group (some "p1") "n2"
      = .error ("Parent group with id " ++ "p1" ++ " not found")
    ∧ FilterStore.addRule c2tree c2rule (some "p1") "n1" = c2tree
    ∧ FilterStore.addGroup c2tree c2group (some "p1") "n2" = c2tree := by
  refine ⟨?_, ?_, ?_, ?_⟩ <;>
    simp [FunStore.addRule, FunStore.addGroup, FilterStore.addRule,
      FilterStore.addGroup, findGroupById, c2tree, c2rule, c2group]

/- ===== Claim C3 ===== -/

/-- A one-rule tree whose single rule has id `r1`. -/
def c3tree : List FilterNode := [.rule ⟨"r1", "name", "eq", .str "Alice", "text"⟩]

/-- A `Partial<Rule>` that contains only `id` — legal for `updateRule`,
whose patch type is `Partial<Rule>` and therefore includes `id`. -/
def c3patch : RulePatch := ⟨some "r2", none, none, none, none⟩

/-- Claim C3 (counterexample): node ids are claimed to be immutable under
`updateRule`/`updateGroup`.  But `updateRule` accepts `Partial<Rule>`,
which includes `id`, and spread-merges it into the target: updating rule
`r1` with `{id: "r2"}` rewrites the tree's id list from `["r1"]` to
`["r2"]`, so the claim fails at this input. -/
theorem updateRule_changes_id_counterexample :
    subtreeIdsList (Store.updateRule c3tree "r1" c3patch) ≠ subtreeIdsList c3tree
    ∧ subtreeIdsList (Store.updateRule c3tree "r1" c3patch) = ["r2"]
    ∧ subtreeIdsList c3tree = ["r1"] := by
  refine ⟨?_, ?_, ?_⟩ <;>
    simp [Store.updateRule, updateTree, c3tree, c3patch, applyRulePatch,
      nodeId, subtreeIdsList, subtreeIds]

/-- Claim C3 (amended): `updateGroup` can never change any node's id (its
patch type excludes `id` and `children`); `updateRule` preserves every
node's id — the target's included — whenever the partial does not carry
an `id` field.  (A partial carrying `id` overwrites the target rule's id,
as the counterexample shows.) -/
theorem update_ops_preserve_ids :
    (∀ (nodes : List FilterNode) (gid : String) (p : GroupPatch),
      subtreeIdsList (Store.updateGroup nodes gid p) = subtreeIdsList nodes)
    ∧ (∀ (nodes : List FilterNode) (rid : String) (p : RulePatch), p.id = none →
      subtreeIdsList (Store.updateRule nodes rid p) = subtreeIdsList nodes) := by
  constructor
  · intro nodes gid p
    apply updateTree_preserve_ids
    intro n _
    cases n with
    | rule r => exact ⟨.rule r, rfl, rfl⟩
    | group g c cs =>
      refine ⟨.group g (p.combinator.getD c) cs, rfl, ?_⟩
      rw [subtreeIds.eq_def]
      conv_rhs => rw [subtreeIds.eq_def]
  · intro nodes rid p hpid
    apply updateTree_preserve_ids
    intro n _
    cases n with
    | group g c cs => exact ⟨.group g c cs, rfl, rfl⟩
    | rule r =>
      refine ⟨.rule (applyRulePatch r p), rfl, ?_⟩
      rw [subtreeIds.eq_def]
      conv_rhs => rw [subtreeIds.eq_def]
      simp [applyRulePatch, hpid]

/-- Witness for the amended C3: a patch without `id` (changing only the
field name) leaves the concrete tree's id list untouched. -/
theorem update_ops_preserve_ids_witness :
    subtreeIdsList (Store.updateRule c3tree "r1" ⟨none, some "age", none, none, none⟩)
      = subtreeIdsList c3tree :=
  update_ops_preserve_ids.2 c3tree "r1" ⟨none, some "age", none, none, none⟩ rfl

/- ===== Claim C8 ===== -/

/-- Claim C8: all removal operations applied to an id that is absent from
the tree leave the tree unchanged — the very same list of nodes, hence the
same ids, node shapes and children order — for both store
implementations.  No error can be raised: every removal in the source is
a straight `updateTree` call with no throw path, which the total
embeddings mirror. -/
theorem remove_absent_id_idempotent (nodes : List FilterNode) (nid : String)
    (h : hasNode nodes nid = false) :
    FilterStore.removeNode nodes nid = nodes
    ∧ FilterStore.removeRule nodes nid = nodes
    ∧ FilterStore.removeGroup nodes nid = nodes
    ∧ FunStore.removeNode nodes nid = nodes
    ∧ FunStore.removeRule nodes nid = nodes
    ∧ FunStore.removeGroup nodes nid = nodes := by
  have hfind : findNodeById nid nodes = none := by
    rcases hf : findNodeById nid nodes with _ | found
    · rfl
    · rw [hasNode, hf] at h
      simp at h
  refine ⟨?_, ?_, ?_, ?_, ?_, ?_⟩ <;>
    exact updateTree_eq_of_findNodeById_none nodes nid _ hfind

/-- Witness for C8: a concrete two-level tree and the absent id `zz`. -/
theorem remove_absent_id_idempotent_witness :
    FilterStore.removeNode [.group "g1" "and" [.rule ⟨"r1", "f", "eq", .null, "text"⟩]] "zz"
      = [.group "g1" "and" [.rule ⟨"r1", "f", "eq", .null, "text"⟩]] :=
  (remove_absent_id_idempotent
    [.group "g1" "and" [.rule ⟨"r1", "f", "eq", .null, "text"⟩]] "zz"
    (by simp [hasNode, findNodeById, nodeId])).1

/- ===== Claim C10 ===== -/

/-- Claim C10: the store's lookups start at the root's children and never
examine the root group itself.  When the root's id occurs nowhere below
the root, `getNode` and `getGroup` on that id return `null` and `hasNode`
is `false`; consequently the root's id is not accepted as a `parentId`:
the function store's `addRule`/`addGroup` throw ParentNotFound and the
class store's versions leave the tree unchanged, even though the root is
a group. -/
theorem root_id_excluded_from_lookup (rid comb : String) (children : List FilterNode)
    (h : rid ∉ subtreeIdsList children) :
    FilterStore.getNode (.group rid comb children) rid = none
    ∧ FilterStore.getGroup (.group rid comb children) rid = none
    ∧ hasNode children rid = false
    ∧ (∀ (r : RuleInput) (newId : String),
        FunStore.addRule children r (some rid) newId
          = .error ("Parent group with id " ++ rid ++ " not found"))
    ∧ (∀ (r : RuleInput) (newId : String),
        FilterStore.addRule children r (some rid) newId = children)
    ∧ (∀ (g : GroupInput) (newId : String),
        FunStore.addGroup children g (some rid) newId
          = .error ("Parent group with id " ++ rid ++ " not found"))
    ∧ (∀ (g : GroupInput) (newId : String),
        FilterStore.addGroup children g (some rid) newId = children) := by
  have h1 := findNodeById_eq_none_of_not_mem children rid h
  have h2 := findGroupById_eq_none_of_not_mem children rid h
  refine ⟨?_, ?_, ?_, ?_, ?_, ?_, ?_⟩
  · simp [FilterStore.getNode, h1]
  · simp [FilterStore.getGroup, h2]
  · simp [hasNode, h1]
  · intro r newId
    simp [FunStore.addRule, h2]
  · intro r newId
    simp [FilterStore.addRule, h2]
  · intro g newId
    simp [FunStore.addGroup, h2]
  · intro g newId
    simp [FilterStore.addGroup, h2]

/-- Concrete children list for the C10 witness. -/
def c10children : List FilterNode := [.rule ⟨"r1", "name", "eq", .null, "text"⟩]

/-- Witness for C10 at a concrete store whose root has id `root`. -/
theorem root_id_excluded_from_lookup_witness :
    FilterStore.getNode (.group "root" "and" c10children) "root" = none
    ∧ FilterStore.addRule c10children ⟨"x", "eq", .null, "text"⟩ (some "root") "n9"
      = c10children := by
  have h := root_id_excluded_from_lookup "root" "and" c10children
    (by simp [c10children, subtreeIdsList, subtreeIds])
  exact ⟨h.1, h.2.2.2.2.1 ⟨"x", "eq", .null, "text"⟩ "n9"⟩

/- ===== Claim C5 ===== -/

/-- Claim C5: group evaluation against any data item and config — a group
with empty children evaluates to true (this case is checked first in the
source and takes precedence); with combinator `and` it is true exactly
when every child evaluates true; with `or` (nonempty, by the precedence
of the empty case) exactly when at least one child evaluates true; and a
nonempty group with any unrecognized combinator evaluates to false — a
logged warning, not a failure: the evaluator is a total function. -/
theorem evaluateGroup_combinator_spec (item : JsVal) (cfg : ClientExecutorConfig)
    (comb : String) (children : List FilterNode) :
    (children = [] → evaluateGroup item cfg comb children = true)
    ∧ (comb = "and" →
        (evaluateGroup item cfg comb children = true ↔
          ∀ c ∈ children, evaluateNode item cfg c = true))
    ∧ (children ≠ [] → comb = "or" →
        (evaluateGroup item cfg comb children = true ↔
          ∃ c ∈ children, evaluateNode item cfg c = true))
    ∧ (children ≠ [] → comb ≠ "and" → comb ≠ "or" →
        evaluateGroup item cfg comb children = false) := by
  refine ⟨?_, ?_, ?_, ?_⟩
  · intro h
    simp [evaluateGroup, h]
  · intro hand
    subst hand
    by_cases hempty : children = []
    · subst hempty
      simp [evaluateGroup]
    · have hlen : ¬ children.length = 0 := by simpa using hempty
      simp [evaluateGroup, hlen, allEval_eq_true_iff]
  · intro hne hor
    subst hor
    have hlen : ¬ children.length = 0 := by simpa using hne
    simp [evaluateGroup, hlen, anyEval_eq_true_iff]
  · intro hne hand hor
    have hlen : ¬ children.length = 0 := by simpa using hne
    simp [evaluateGroup, hlen, hand, hor]

/-- The data item of the C5 witness (any item works; the rules below
match on an absent field). -/
def c5item : JsVal := .obj []

/-- The empty evaluation config of the C5 witness. -/
def c5cfg : ClientExecutorConfig := ⟨[], []⟩

/-- A child rule that evaluates to true against `c5item`: value `null`
with op `eq` asks the (absent) field to be nullish. -/
def c5rule : Rule := ⟨"r", "f", "eq", .null, "text"⟩

/-- Witness for C5: the empty group is true under a bogus combinator, an
`or` group with one true child is true, and a nonempty group with a bogus
combinator is false. -/
theorem evaluateGroup_combinator_spec_witness :
    evaluateGroup c5item c5cfg "weird" [] = true
    ∧ evaluateGroup c5item c5cfg "or" [.rule c5rule] = true
    ∧ evaluateGroup c5item c5cfg "weird" [.rule c5rule] = false := by
  have h1 := (evaluateGroup_combinator_spec c5item c5cfg "weird" []).1 rfl
  have h2 := (evaluateGroup_combinator_spec c5item c5cfg "or" [.rule c5rule]).2.2.1
    (by simp) rfl
  have h3 := (evaluateGroup_combinator_spec c5item c5cfg "weird" [.rule c5rule]).2.2.2
    (by simp) (by decide) (by decide)
  refine ⟨h1, h2.mpr ⟨.rule c5rule, by simp, ?_⟩, h3⟩
  have : evaluateNode c5item c5cfg (.rule c5rule) = evaluateRule c5item c5rule c5cfg := by
    simp [evaluateNode]
  rw [this]
  decide

/- ===== Claim C6 ===== -/

/-- Claim C6: when a rule's value is nullish, evaluation bypasses the
operator table entirely — the statement holds for every config, in
particular ones whose `customOperations` bind the rule's op: with op `eq`
the rule is true exactly when the extracted field value is nullish, and
with any other op exactly when the field value is present. -/
theorem evaluateRule_nullish_precedence (item : JsVal) (r : Rule)
    (cfg : ClientExecutorConfig)
    (h : r.value = JsVal.null ∨ r.value = JsVal.undefined) :
    (r.op = "eq" →
      (evaluateRule item r cfg = true ↔
        isNullish (extractFieldValue item r cfg) = true))
    ∧ (r.op ≠ "eq" →
      (evaluateRule item r cfg = true ↔
        isNullish (extractFieldValue item r cfg) = false)) := by
  have hn : isNullish r.value = true := by
    rcases h with h | h <;> simp [h, isNullish]
  constructor
  · intro hop
    simp [evaluateRule, hn, hop]
  · intro hop
    simp [evaluateRule, hn, hop]

/-- The data item of the C6 witness: the field `name` is present. -/
def c6item : JsVal := .obj [("name", .str "Ada")]

/-- A rule with nullish value and op `ne`. -/
def c6rule : Rule := ⟨"r1", "name", "ne", .null, "text"⟩

/-- A config whose custom `ne` handler would answer `false` — evaluation
must ignore it because the rule value is nullish. -/
def c6cfg : ClientExecutorConfig := ⟨[("ne", fun _ _ => false)], []⟩

/-- Witness for C6: the rule evaluates to true (the field is present)
although the registered custom `ne` handler answers false — the handler
is bypassed. -/
theorem evaluateRule_nullish_precedence_witness :
    evaluateRule c6item c6rule c6cfg = true :=
  ((evaluateRule_nullish_precedence c6item c6rule c6cfg (Or.inl rfl)).2
    (by decide)).mpr (by decide)

/- ===== Claim C9 ===== -/

/-- `strIncludes.go` answers true only on genuine contiguous substring
decompositions. -/
theorem strIncludes_go_sub :
    ∀ (needle hay : List Char), strIncludes.go needle hay = true →
      ∃ pre post, pre ++ needle ++ post = hay
  | needle, [] => by
    intro h
    simp [strIncludes.go] at h
    exact ⟨[], [], by simp [h]⟩
  | needle, c :: rest => by
    intro h
    simp only [strIncludes.go, Bool.or_eq_true] at h
    rcases h with h | h
    · obtain ⟨t, ht⟩ := List.isPrefixOf_iff_prefix.mp h
      exact ⟨[], t, by simpa using ht⟩
    · obtain ⟨pre, post, hs⟩ := strIncludes_go_sub needle rest h
      exact ⟨c :: pre, post, by simp [hs]⟩

/-- The beer item of the spec's worked example. -/
def c9item : JsVal := .obj [("tags", .obj [("primary", .str "Pale Ale")])]

/-- The rule of the spec's worked example. -/
def c9rule : Rule := ⟨"r1", "tags.primary", "contains", .str "ale", "text"⟩

/-- Empty config for the C9 example. -/
def c9cfg : ClientExecutorConfig := ⟨[], []⟩

/-- Claim C9: the worked example evaluates to true; the dotted path
resolves through nested property access (and an absent intermediate
yields undefined); and the `contains` handler answers true only when
both operands are strings and the lowercased rule value occurs as a
contiguous substring of the lowercased field value. -/
theorem contains_rule_example :
    evaluateRule c9item c9rule c9cfg = true
    ∧ getFieldValue c9item "tags.primary" = .str "Pale Ale"
    ∧ getFieldValue c9item "tags.missing.deeper" = .undefined
    ∧ (∀ fv rv, containsOp fv rv = true →
        ∃ a b, fv = .str a ∧ rv = .str b ∧
          ∃ pre post, pre ++ (jsToLower b).data ++ post = (jsToLower a).data) := by
  refine ⟨by decide, rfl, rfl, ?_⟩
  intro fv rv h
  cases fv <;> cases rv <;> simp [containsOp] at h
  case str.str a b =>
    refine ⟨a, b, rfl, rfl, ?_⟩
    exact strIncludes_go_sub _ _ h

/-- Witness for C9's characterization of `contains` at the example's
operands. -/
theorem contains_rule_example_witness :
    ∃ a b, JsVal.str "Pale Ale" = JsVal.str a ∧ JsVal.str "ale" = JsVal.str b ∧
      ∃ pre post, pre ++ (jsToLower b).data ++ post = (jsToLower a).data :=
  contains_rule_example.2.2.2 (.str "Pale Ale") (.str "ale") (by decide)

/- ===== Claim C7 ===== -/

/-- The op-precedence chain written in the source agrees with the spec's
wording of the precedence. -/
theorem initialRuleOp_eq_spec (config : FilterConfig) (field : FilterFieldConfig) :
    initialRuleOp config field = specInitialRuleOp config field := by
  rcases hop : field.defaultOp with _ | op
  · rcases hcfg : config.defaultOperations with _ | table
    · rcases hbi : defaultOperationsTable.lookup field.component with _ | ops
      · simp [initialRuleOp, specInitialRuleOp, hop, hcfg, hbi, Option.orElse]
      · rcases ops with _ | ⟨o, os⟩ <;>
          simp [initialRuleOp, specInitialRuleOp, hop, hcfg, hbi, Option.orElse]
    · rcases hlk : table.lookup field.component with _ | ops
      · rcases hbi : defaultOperationsTable.lookup field.component with _ | bops
        · simp [initialRuleOp, specInitialRuleOp, hop, hcfg, hlk, hbi, Option.orElse]
        · rcases bops with _ | ⟨o, os⟩ <;>
            simp [initialRuleOp, specInitialRuleOp, hop, hcfg, hlk, hbi, Option.orElse]
      · rcases ops with _ | ⟨o, os⟩
        · rcases hbi : defaultOperationsTable.lookup field.component with _ | bops
          · simp [initialRuleOp, specInitialRuleOp, hop, hcfg, hlk, hbi, Option.orElse]
          · rcases bops with _ | ⟨o, os⟩ <;>
              simp [initialRuleOp, specInitialRuleOp, hop, hcfg, hlk, hbi, Option.orElse]
        · simp [initialRuleOp, specInitialRuleOp, hop, hcfg, hlk, Option.orElse]
  · simp [initialRuleOp, specInitialRuleOp, hop, Option.orElse]

/-- The `age`/`number` field configuration of the spec's example. -/
def c7ageConfig : FilterConfig := ⟨[⟨"age", "Age", "number", none, none⟩], none⟩

/-- Claim C7: the synthesized initial state is a root group (combinator
`and`) with exactly one rule per configured field in configuration
order, each rule's op chosen by the spec's precedence and its value `[]`
for multiselect else `null`; and on the config
`[{field:"age", component:"number"}]` the result is one rule with op
`eq`, value `null`, component `number`. -/
theorem createInitialFilterState_spec (gen : Nat → String) (config : FilterConfig) :
    createInitialFilterState gen config
      = .group (gen 0) "and" (config.fields.enum.map (fun p =>
          .rule ⟨gen (p.1 + 1), p.2.field, specInitialRuleOp config p.2,
            specInitialValue p.2, p.2.component⟩))
    ∧ createInitialFilterState gen c7ageConfig
      = .group (gen 0) "and" [.rule ⟨gen 1, "age", "eq", .null, "number"⟩] := by
  constructor
  · rw [createInitialFilterState]
    congr 1
    apply List.map_congr_left
    intro p _
    rw [initialRuleOp_eq_spec]
    rfl
  · rw [createInitialFilterState]
    congr 1

/- ===== Claim C1 ===== -/

/-- The AST handed to the pipeline examples (its content is irrelevant to
the executors under test). -/
def c1ast : FilterNode := .group "root" "and" []

/-- The error the failing terminal executor throws on its n-th
invocation, so that "the last observed error" is distinguishable. -/
def c1msgs : Nat → String
  | 0 => "boom0"
  | 1 => "boom1"
  | _ => "boom2"

/-- Claim C1 (code bug): the claim (and the spec) say that composing
`[retryMiddleware(2, base), alwaysFailingExecutor]` invokes the terminal
executor exactly 3 times with delays `base * 2^0`, `base * 2^1` between
attempts and surfaces the last terminal error.  In the source this cannot
happen: the composed closure initializes its dispatch guard with
`let index = 0` and immediately calls `dispatch(0)`, so the `i <= index`
check fires on the very first dispatch — the invocation rejects with
`next() called multiple times`, the terminal executor runs 0 times and no
delay elapses (first conjunct).  The retry middleware itself, applied
directly to the failing executor, does satisfy the claimed contract:
3 invocations, delays `[1000, 2000]`, and the last error `boom2`
surfaced (second conjunct) — the slip is the guard's initial value in
`createFilterExecutor`, not the retry logic. -/
theorem retry_pipeline_divergence :
    createFilterExecutor Nat [retryMiddleware Nat 2 1000] (failingExecutor Nat c1msgs)
        c1ast none ⟨0, 0, []⟩
      = (.error "next() called multiple times", ⟨0, 0, []⟩)
    ∧ retryMiddleware Nat 2 1000 c1ast (failingExecutor Nat c1msgs) none ⟨0, 0, []⟩
      = (.error "boom2", ⟨0, 3, [1000, 2000]⟩) := by
  constructor
  · rw [createFilterExecutor]
    simp only [List.isEmpty, Bool.false_eq_true, if_false]
    rw [dispatch.eq_def]
    simp
  · rfl

/- ===== Claim C4 ===== -/

/-- The AST handed to the C4 pipeline example. -/
def c4ast : FilterNode := .group "r2" "and" []

/-- Claim C4 (code bug): the claim says each stage's `next` may be called
once, only a second call failing with DoubleDispatch, and that dispatch
state is per-invocation.  In the source no stage ever gets to call
`next`: the guard index starts at 0 and `dispatch(0)` already fails the
`i <= index` check, so composing a single well-behaved middleware (which
calls `next` exactly once) with a succeeding executor rejects immediately
with the DoubleDispatch error and invokes neither stage (first conjunct).
The middleware and executor are themselves fine: applied directly, the
middleware's single `next` call resolves with the executor's value after
exactly one terminal invocation (second conjunct). -/
theorem composed_first_dispatch_divergence :
    createFilterExecutor Nat [passMiddleware Nat] (succeedingExecutor Nat [7]) c4ast
        none ⟨0, 0, []⟩
      = (.error "next() called multiple times", ⟨0, 0, []⟩)
    ∧ passMiddleware Nat c4ast (succeedingExecutor Nat [7]) none ⟨0, 0, []⟩
      = (.ok [7], ⟨0, 1, []⟩) := by
  constructor
  · rw [createFilterExecutor]
    simp only [List.isEmpty, Bool.false_eq_true, if_false]
    rw [dispatch.eq_def]
    simp
  · rfl

end FilterLib
